import Mathlib

/-!
Verification of the C-Turtle turtle-graphics core (`src/CTurtle.hpp`).

The development shallow-embeds the pen-state stack, the scene-object log,
and the screen bookkeeping of the repository. External collaborators
(colors, affine transforms, drawable geometry, callbacks) are abstracted
to tags, since the core never inspects their structure: it only stores,
copies and compares them. Methods whose bodies live in the (absent)
implementation file are modelled from the specification document and tagged
as such in their doc comments; everything else is translated directly from
the header.
-/

namespace CTurtle

/-- Colors are abstract tags; the core stores and copies them, never
inspects them. -/
abbrev Color := Nat

/-- Source default `Color::black`. -/
def Color.black : Color := 0

/-- Source default `Color::white`. -/
def Color.white : Color := 1

/-- Affine transforms are abstract tags: the core treats them as uninterpreted
values that are stored in pen states and scene objects. -/
abbrev AffineTransform := Nat

/-- Keyboard keys, abstracted to tags (source: `KeyboardKey` enum). -/
abbrev KeyboardKey := Nat

/-- Key/mouse/timer callbacks, abstracted to tags. Invoking a callback is
modelled by emitting its tag into an invocation trace. -/
abbrev KeyFunc := Nat

/-- Drawable geometry payloads. The source stores an `IDrawableGeometry*`;
the concrete payloads the modelled operations create are trace lines,
fill polygons and circles. -/
inductive GeomPayload where
  | lineSeg (a b : AffineTransform)
  | polygonOf (pts : List AffineTransform)
  | circleOf (radius : Int) (steps : Int)
  deriving DecidableEq, Repr

/-- One drawable record of the scene log (source struct `SceneObject`).
`geom` models the owned `std::unique_ptr<IDrawableGeometry>` payload and
`unownedGeom` the raw borrowed pointer used by stamps (a tag of the
referenced cursor geometry). An object with nonempty `text` is a string
object. Field defaults follow the source member defaults. -/
structure SceneObject where
  geom : Option GeomPayload := none
  unownedGeom : Option Nat := none
  fillColor : Color := Color.black
  outlineWidth : Nat := 0
  outlineColor : Color := Color.black
  transform : AffineTransform := 0
  stamp : Bool := false
  stampid : Int := -1
  text : String := ""
  deriving DecidableEq, Repr

/-- Pen state snapshot (source struct `PenState`). `moveSpeed` and
`cursorTilt` are `float` in the source and are modelled as rationals;
`cursor` is a tag of the referenced cursor geometry (the source default is
the registered "indented triangle" shape). Field defaults follow the
source member defaults (`TS_NORMAL = 6`). -/
structure PenState where
  transform : AffineTransform := 0
  moveSpeed : ℚ := 6
  tracing : Bool := true
  angleMode : Bool := false
  penWidth : Int := 1
  filling : Bool := false
  penColor : Color := Color.black
  fillColor : Color := Color.black
  objectsBefore : Nat := 0
  cursor : Nat := 0
  curStamp : Int := 0
  visible : Bool := true
  cursorTilt : ℚ := 0
  deriving DecidableEq, Repr

/-- The default-constructed `PenState()` of the source. -/
def initialPenState : PenState := {}

/-- The turtle engine state (source class `Turtle`). The state stack holds
pen states oldest-first, so the current state is the last entry, matching
the spec: push appends the new top and exceeding the capacity discards the
oldest entries, which the header trims with `pop_front`. `fillAccum`
models the polygon accumulator and `fillInsertPos` the remembered scene
log position of the fill-insert iterator. -/
structure Turtle where
  stateStack : List PenState := [initialPenState]
  undoStackSize : Nat := 100
  fillAccum : List AffineTransform := []
  fillInsertPos : Nat := 0
  deriving DecidableEq, Repr

/-- The screen state (source class `TurtleScreen`). The canvas pixel
buffer is modelled by the list of scene objects that have been drawn onto
it since the last full rebuild. The source keeps key bindings in a
two-entry array of maps from key to callback list; the two registries are
modelled as association lists (`keyBindings[0]` for presses,
`keyBindings[1]` for releases). Attached turtles are non-owning pointers,
modelled as tags. -/
structure TurtleScreen where
  objects : List SceneObject := []
  lastTotalObjects : Nat := 0
  canvas : List SceneObject := []
  backgroundColor : Color := Color.white
  backgroundImage : Option Nat := none
  keyBindingsDown : List (KeyboardKey × List KeyFunc) := []
  keyBindingsUp : List (KeyboardKey × List KeyFunc) := []
  mouseBindings : List KeyFunc × List KeyFunc × List KeyFunc := ([], [], [])
  timerBindings : List (KeyFunc × Nat × Nat) := []
  turtles : List Nat := []
  deriving DecidableEq, Repr

/-- The current pen state: the top (most recent entry) of the state
stack. -/
def Turtle.state (t : Turtle) : PenState :=
  t.stateStack.getLastD initialPenState

/-- Replaces the top pen state by the image of the given function,
modelling in-place mutation of the current state (`state.x = v` in the
source). -/
def Turtle.modifyTop (t : Turtle) (f : PenState → PenState) : Turtle :=
  { t with stateStack := t.stateStack.dropLast ++ [f t.state] }

/-- Modelled from the spec: `Turtle::pushState` (body not under `src/`).
Copies the current top state, sets its `objectsBefore` to the current
scene log length, appends the copy as the new top, and discards the
oldest entries while the stack exceeds the undo capacity. -/
def Turtle.pushState (t : Turtle) (scr : TurtleScreen) : Turtle :=
  let newTop : PenState := { t.state with objectsBefore := scr.objects.length }
  let stack := t.stateStack ++ [newTop]
  { t with stateStack := stack.drop (stack.length - t.undoStackSize) }

/-- Modelled from the spec: `Turtle::undo` / `Turtle::popState` (bodies
not under `src/`). If more than one pen state remains, removes the top
state and truncates the scene log back to the popped state
`objectsBefore` length; with only the bottom state left it is a no-op. -/
def Turtle.undo (t : Turtle) (scr : TurtleScreen) : Turtle × TurtleScreen :=
  if t.stateStack.length ≤ 1 then (t, scr)
  else
    ({ t with stateStack := t.stateStack.dropLast },
     { scr with objects := scr.objects.take t.state.objectsBefore })

/-- The `while(stateStack.size() > size) stateStack.pop_front();` loop of
`Turtle::setundobuffer` in the header: drops the front (oldest) entry
until at most `size` remain. -/
def trimToSize (size : Nat) : List PenState → List PenState
  | [] => []
  | s :: rest => if rest.length + 1 > size then trimToSize size rest else s :: rest

/-- Source `Turtle::setundobuffer` (in the header): clamps the requested
size to at least 1, records it, then trims the state stack from the
oldest end until at most that many entries remain. -/
def Turtle.setundobuffer (t : Turtle) (size : Nat) : Turtle :=
  let size := if size < 1 then 1 else size
  { t with undoStackSize := size, stateStack := trimToSize size t.stateStack }

/-- Truncation of a rational toward zero, modelling the C `long` cast. -/
def ratTrunc (q : ℚ) : Int := q.num.tdiv q.den

/-- Source `Turtle::getAnimMS` (in the header), parameterized by the move
speed: `moveSpeed <= 0 ? 0 : long(((11.0f - moveSpeed)/10.0f) * 300)`.
The float arithmetic is modelled over the rationals. -/
def getAnimMS (moveSpeed : ℚ) : Int :=
  if moveSpeed ≤ 0 then 0 else ratTrunc ((11 - moveSpeed) / 10 * 300)

/-- The animation duration of a turtle, from its current move speed. -/
def Turtle.getAnimMS (t : Turtle) : Int :=
  CTurtle.getAnimMS t.state.moveSpeed

/-- Modelled from the spec: `Turtle::circle` (body not under `src/`; the
header documents it as "Adds a circle to the screen"). Pushes a state and
appends one owned circle geometry object in the given color at the
current transform. -/
def Turtle.circle (t : Turtle) (scr : TurtleScreen) (radius : Int) (steps : Int)
    (color : Color) : Turtle × TurtleScreen :=
  let t1 := t.pushState scr
  (t1, { scr with objects := scr.objects ++
      [{ geom := some (GeomPayload.circleOf radius steps),
         fillColor := color, transform := t.state.transform }] })

/-- Source `Turtle::dot` (in the header): defined as
`circle(size/2, 4, color)`, where `size/2` is C integer division
(truncation toward zero). -/
def Turtle.dot (t : Turtle) (scr : TurtleScreen) (color : Color) (size : Int) :
    Turtle × TurtleScreen :=
  Turtle.circle t scr (size.tdiv 2) 4 color

/-- The permanent trace-line scene object committed by a pen-down travel
from the pre-mutation transform to the destination, in the pen color
(source `Turtle::pushTraceLine`). -/
def traceLineObj (st : PenState) (dest : AffineTransform) : SceneObject :=
  { geom := some (GeomPayload.lineSeg st.transform dest),
    fillColor := st.penColor }

/-- Modelled from the spec: `Turtle::travelTo` (body not under `src/`),
the single primitive behind forward/backward/goTo movement. Pushes a
state, appends the permanent trace-line object when tracing, appends the
destination as a fill vertex when filling, and commits the destination
transform. The visual-only interpolation frames are never logged and are
not modelled. -/
def Turtle.travelTo (t : Turtle) (scr : TurtleScreen) (dest : AffineTransform) :
    Turtle × TurtleScreen :=
  let t1 := t.pushState scr
  let t2 := if t1.state.filling
            then { t1 with fillAccum := t1.fillAccum ++ [dest] }
            else t1
  let scr1 := if t1.state.tracing
              then { scr with objects := scr.objects ++ [traceLineObj t.state dest] }
              else scr
  (t2.modifyTop (fun s => { s with transform := dest }), scr1)

/-- The single filled-polygon scene object finalized by end_fill from the
accumulated vertices, drawn with the fill color. -/
def fillPolyObj (pts : List AffineTransform) (c : Color) : SceneObject :=
  { geom := some (GeomPayload.polygonOf pts), fillColor := c }

/-- Modelled from the spec: `Turtle::fill` (body not under `src/`).
Turning fill on remembers the current scene log position for the eventual
polygon and starts the accumulator at the current position; turning fill
off, only if it was previously on, inserts the single accumulated polygon
object at the remembered position, underneath geometry added while
filling. The filling flag itself is an undoable pen attribute, so a state
is pushed before it is mutated. -/
def Turtle.fill (t : Turtle) (scr : TurtleScreen) (b : Bool) : Turtle × TurtleScreen :=
  let t1 := (t.pushState scr).modifyTop (fun s => { s with filling := b })
  if t.state.filling && !b then
    ({ t1 with fillAccum := [] },
     { scr with objects :=
         scr.objects.insertIdx t.fillInsertPos (fillPolyObj t.fillAccum t.state.fillColor) })
  else if !t.state.filling && b then
    ({ t1 with fillAccum := [t.state.transform], fillInsertPos := scr.objects.length },
     scr)
  else
    (t1, scr)

/-- Modelled from the spec: `Turtle::stamp` (body not under `src/`).
Pushes a state, appends a stamp object referencing (not copying) the
current cursor geometry, tagged with the current per-turtle stamp
counter, increments the counter, and returns the used id. -/
def Turtle.stamp (t : Turtle) (scr : TurtleScreen) : (Turtle × TurtleScreen) × Int :=
  let t1 := t.pushState scr
  let id := t1.state.curStamp
  let obj : SceneObject :=
    { unownedGeom := some t1.state.cursor, fillColor := t1.state.fillColor,
      transform := t1.state.transform, stamp := true, stampid := id }
  ((t1.modifyTop (fun s => { s with curStamp := s.curStamp + 1 }),
    { scr with objects := scr.objects ++ [obj] }), id)

/-- Modelled from the spec: `Turtle::clearstamps` (body not under
`src/`; the header documents it as removing all stamps with an id less
than the given one, or all stamps when the given id is below 0). Keeps
exactly the scene objects that are not such stamps. -/
def Turtle.clearstamps (t : Turtle) (scr : TurtleScreen) (stampid : Int) :
    Turtle × TurtleScreen :=
  let keep : SceneObject → Bool :=
    fun o => !(o.stamp && (decide (stampid < 0) || decide (o.stampid < stampid)))
  (t, { scr with objects := scr.objects.filter keep })

/-- Modelled from the spec: `Turtle::setpenstate` (body not under
`src/`): pushes a state and sets the tracing flag. -/
def Turtle.setpenstate (t : Turtle) (scr : TurtleScreen) (down : Bool) : Turtle :=
  (t.pushState scr).modifyTop (fun s => { s with tracing := down })

/-- Source `Turtle::pencolor` (in the header): pushes a state and sets
the pen color. -/
def Turtle.pencolor (t : Turtle) (scr : TurtleScreen) (c : Color) : Turtle :=
  (t.pushState scr).modifyTop (fun s => { s with penColor := c })

/-- Source `Turtle::width` (in the header): pushes a state and sets the
pen width. -/
def Turtle.width (t : Turtle) (scr : TurtleScreen) (pixels : Int) : Turtle :=
  (t.pushState scr).modifyTop (fun s => { s with penWidth := pixels })

/-- Modelled from the spec: `TurtleScreen::redraw` (body not under
`src/`). If a full invalidation was requested, or the scene log shrank
since the last redraw, the whole canvas is rebuilt from the entire scene
log; otherwise only the objects appended since the objects-already-drawn
counter are drawn on top of the existing canvas. Either way the counter
is set to the current log length. -/
def TurtleScreen.redraw (scr : TurtleScreen) (invalidate : Bool) : TurtleScreen :=
  if invalidate || scr.objects.length < scr.lastTotalObjects then
    { scr with canvas := scr.objects, lastTotalObjects := scr.objects.length }
  else
    { scr with canvas := scr.canvas ++ scr.objects.drop scr.lastTotalObjects,
               lastTotalObjects := scr.objects.length }

/-- Modelled from the spec: `TurtleScreen::clearscreen` (body not under
`src/`). Empties the scene log, clears all key, mouse and timer callback
bindings, resets the background to the plain default, and leaves the
attached-turtle membership untouched. (The header doc comment of the
declaration instead says it also deletes turtles; the model follows the
specification document.) -/
def TurtleScreen.clearscreen (scr : TurtleScreen) : TurtleScreen :=
  { scr with objects := [],
             keyBindingsDown := [], keyBindingsUp := [],
             mouseBindings := ([], [], []), timerBindings := [],
             backgroundColor := Color.white, backgroundImage := none }

/-- Lookup of the callback list bound to a key in one registry
(`keyBindings[i].find(key)` in the source; `none` models the map
find-equals-end case). -/
def findKeyList (m : List (KeyboardKey × List KeyFunc)) (key : KeyboardKey) :
    Option (List KeyFunc) :=
  (m.find? (fun p => p.1 == key)).map Prod.snd

/-- Appends a callback at the end of the list bound to the given key
(`keyBindings[i][key].push_back(func)` in the source; the entry is
present when this runs). -/
def addKeyFunc : List (KeyboardKey × List KeyFunc) → KeyboardKey → KeyFunc →
    List (KeyboardKey × List KeyFunc)
  | [], _, _ => []
  | (k, fs) :: rest, key, func =>
      if k == key then (k, fs ++ [func]) :: rest
      else (k, fs) :: addKeyFunc rest key func

/-- One registry step shared by `onkeypress` and `onkeyrelease` (both in
the header): create an empty list for the key if absent, then push the
callback to the end of that list. -/
def bindKey (m : List (KeyboardKey × List KeyFunc)) (func : KeyFunc)
    (key : KeyboardKey) : List (KeyboardKey × List KeyFunc) :=
  let m1 := if (findKeyList m key).isNone then m ++ [(key, [])] else m
  addKeyFunc m1 key func

/-- Source `TurtleScreen::onkeypress` (in the header): registers an
additional on-press callback for the key, at the end of its list. -/
def TurtleScreen.onkeypress (scr : TurtleScreen) (func : KeyFunc)
    (key : KeyboardKey) : TurtleScreen :=
  { scr with keyBindingsDown := bindKey scr.keyBindingsDown func key }

/-- Source `TurtleScreen::onkeyrelease` (in the header): registers an
additional on-release callback for the key, at the end of its list. -/
def TurtleScreen.onkeyrelease (scr : TurtleScreen) (func : KeyFunc)
    (key : KeyboardKey) : TurtleScreen :=
  { scr with keyBindingsUp := bindKey scr.keyBindingsUp func key }

/-- Source `TurtleScreen::presskey` (in the header): returns immediately
when no list is bound to the key, otherwise calls every bound callback in
list order. The result is the invocation trace: the tags of the invoked
callbacks, in invocation order. -/
def TurtleScreen.presskey (scr : TurtleScreen) (key : KeyboardKey) : List KeyFunc :=
  match findKeyList scr.keyBindingsDown key with
  | none => []
  | some fs => fs

/-- Source `TurtleScreen::releasekey` (in the header): the on-release
counterpart of `presskey`, over the independent release registry. -/
def TurtleScreen.releasekey (scr : TurtleScreen) (key : KeyboardKey) : List KeyFunc :=
  match findKeyList scr.keyBindingsUp key with
  | none => []
  | some fs => fs

/-- A key-callback registration: which registry, which callback, which
key. -/
inductive KeyReg where
  | press (func : KeyFunc) (key : KeyboardKey)
  | release (func : KeyFunc) (key : KeyboardKey)
  deriving DecidableEq, Repr

/-- Applies a sequence of registrations to a screen in order. -/
def applyRegs (scr : TurtleScreen) : List KeyReg → TurtleScreen
  | [] => scr
  | KeyReg.press f k :: rest => applyRegs (scr.onkeypress f k) rest
  | KeyReg.release f k :: rest => applyRegs (scr.onkeyrelease f k) rest

/-- The on-press callbacks a registration sequence binds to a key, in
registration order. -/
def pressFuncsFor (regs : List KeyReg) (key : KeyboardKey) : List KeyFunc :=
  regs.filterMap (fun r =>
    match r with
    | KeyReg.press f k => if k == key then some f else none
    | KeyReg.release _ _ => none)

/-- The on-release callbacks a registration sequence binds to a key, in
registration order. -/
def releaseFuncsFor (regs : List KeyReg) (key : KeyboardKey) : List KeyFunc :=
  regs.filterMap (fun r =>
    match r with
    | KeyReg.press _ _ => none
    | KeyReg.release f k => if k == key then some f else none)

/-- The operations of one turtle, as interleaved by a caller. -/
inductive Op where
  | moveOp (dest : AffineTransform)
  | stampOp
  | fillOp (b : Bool)
  | penOp (down : Bool)
  | pencolorOp (c : Color)
  | widthOp (w : Int)
  | clearstampsOp (stampid : Int)
  | setundobufferOp (size : Nat)
  | undoOp
  deriving DecidableEq, Repr

/-- Executes one operation; the optional integer is the id returned by a
stamp call. -/
def execOp (t : Turtle) (scr : TurtleScreen) : Op → (Turtle × TurtleScreen) × Option Int
  | Op.moveOp d => (t.travelTo scr d, none)
  | Op.stampOp => let r := t.stamp scr; (r.1, some r.2)
  | Op.fillOp b => (t.fill scr b, none)
  | Op.penOp down => ((t.setpenstate scr down, scr), none)
  | Op.pencolorOp c => ((t.pencolor scr c, scr), none)
  | Op.widthOp w => ((t.width scr w, scr), none)
  | Op.clearstampsOp sid => (t.clearstamps scr sid, none)
  | Op.setundobufferOp m => ((t.setundobuffer m, scr), none)
  | Op.undoOp => (t.undo scr, none)

/-- Executes a sequence of operations, collecting the ids returned by the
stamp calls in order. -/
def execTrace : List Op → Turtle → TurtleScreen → (Turtle × TurtleScreen) × List Int
  | [], t, scr => ((t, scr), [])
  | op :: ops, t, scr =>
      let r := execOp t scr op
      let rest := execTrace ops r.1.1 r.1.2
      (rest.1, r.2.toList ++ rest.2)

/-- The number of stamp calls in an operation sequence. -/
def countStamps : List Op → Nat
  | [] => 0
  | Op.stampOp :: rest => countStamps rest + 1
  | _ :: rest => countStamps rest

/-- Executes a sequence of travel destinations in order. -/
def travelSeq (t : Turtle) (scr : TurtleScreen) : List AffineTransform → Turtle × TurtleScreen
  | [] => (t, scr)
  | d :: ds =>
      let p := t.travelTo scr d
      travelSeq p.1 p.2 ds

/-- A freshly constructed turtle: one default pen state on the stack,
undo capacity 100 (source member defaults). -/
def freshTurtle : Turtle := {}

/-- A freshly constructed screen: empty scene log and registries. -/
def freshScreen : TurtleScreen := {}

/-- Concrete scene objects used to evaluate the theorems on closed
inputs. -/
def objPlain : SceneObject := {}

/-- A concrete non-stamp text object. -/
def objText : SceneObject := { text := "hi" }

/-- A concrete stamp object with id 0. -/
def objStamp0 : SceneObject := { stamp := true, stampid := 0 }

/-- A concrete stamp object with id 1. -/
def objStamp1 : SceneObject := { stamp := true, stampid := 1 }

/-- A concrete bottom pen state for the undo evaluation. -/
def penBottom : PenState := initialPenState

/-- A concrete top pen state, pushed when the scene log held one
object. -/
def penTop : PenState := { initialPenState with objectsBefore := 1, curStamp := 3 }

/-- A concrete turtle whose stack holds two pen states. -/
def tUndo : Turtle := { stateStack := [penBottom, penTop] }

/-- A concrete screen whose log grew by two objects since `penTop` was
pushed. -/
def scrUndo : TurtleScreen := { objects := [objPlain, objText, objPlain] }

/-- A concrete screen mid-session: two logged objects, one already
drawn. -/
def scrRedraw : TurtleScreen :=
  { objects := [objPlain, objText], lastTotalObjects := 1, canvas := [objPlain] }

/-- A concrete screen holding two stamps and a non-stamp. -/
def scrStamps : TurtleScreen := { objects := [objStamp0, objText, objStamp1] }

/-- A concrete screen holding one object, to fill on top of. -/
def scrFill : TurtleScreen := { objects := [objPlain] }

/-! ## Helper lemmas -/

theorem trimToSize_eq_drop (size : Nat) (l : List PenState) :
    trimToSize size l = l.drop (l.length - size) := by
  induction l with
  | nil => simp [trimToSize]
  | cons a rest ih =>
      simp only [trimToSize, List.length_cons]
      split
      · rename_i h
        rw [ih]
        have hk : rest.length + 1 - size = (rest.length - size) + 1 := by omega
        rw [hk, List.drop_succ_cons]
      · rename_i h
        have hk : rest.length + 1 - size = 0 := by omega
        rw [hk, List.drop_zero]

theorem getLastD_drop_of_lt {α : Type} (l : List α) (k : Nat) (h : k < l.length)
    (d : α) : (l.drop k).getLastD d = l.getLastD d := by
  rw [List.getLastD_eq_getLast?, List.getLastD_eq_getLast?, List.getLast?_drop,
    if_neg (by omega)]

theorem pushState_stateStack (t : Turtle) (scr : TurtleScreen)
    (hu : 1 ≤ t.undoStackSize) :
    (t.pushState scr).stateStack
      = t.stateStack.drop (t.stateStack.length + 1 - t.undoStackSize)
        ++ [{ t.state with objectsBefore := scr.objects.length }] := by
  unfold Turtle.pushState
  simp only [List.length_append, List.length_cons, List.length_nil]
  rw [List.drop_append_of_le_length (by omega)]

theorem pushState_state (t : Turtle) (scr : TurtleScreen)
    (hu : 1 ≤ t.undoStackSize) :
    (t.pushState scr).state = { t.state with objectsBefore := scr.objects.length } := by
  unfold Turtle.state
  rw [pushState_stateStack t scr hu, List.getLastD_concat]
  rfl

theorem pushState_ne_nil (t : Turtle) (scr : TurtleScreen)
    (hu : 1 ≤ t.undoStackSize) : (t.pushState scr).stateStack ≠ [] := by
  rw [pushState_stateStack t scr hu]
  simp

theorem pushState_undoStackSize (t : Turtle) (scr : TurtleScreen) :
    (t.pushState scr).undoStackSize = t.undoStackSize := rfl

theorem modifyTop_state (t : Turtle) (f : PenState → PenState) :
    (t.modifyTop f).state = f t.state := by
  show (t.stateStack.dropLast ++ [f t.state]).getLastD initialPenState = f t.state
  rw [List.getLastD_concat]

theorem modifyTop_ne_nil (t : Turtle) (f : PenState → PenState) :
    (t.modifyTop f).stateStack ≠ [] := by
  simp [Turtle.modifyTop]

/-! ## C4: setundobuffer clamps and keeps the newest entries -/

/-- C4: for every size argument M, setundobuffer first clamps M to at
least 1 and never fails, records the clamped capacity, and trims the undo
stack to at most that many entries; the surviving entries are the suffix
of most recently pushed states, the oldest being discarded first. -/
theorem setundobuffer_clamps_and_keeps_newest (t : Turtle) (M : Nat) :
    (t.setundobuffer M).undoStackSize = max M 1
  ∧ (t.setundobuffer M).stateStack
      = t.stateStack.drop (t.stateStack.length - max M 1)
  ∧ (t.setundobuffer M).stateStack.length
      = min t.stateStack.length (max M 1) := by
  have hm : (if M < 1 then 1 else M) = max M 1 := by split <;> omega
  have hs : (t.setundobuffer M).stateStack
      = t.stateStack.drop (t.stateStack.length - max M 1) := by
    unfold Turtle.setundobuffer
    simp only [hm, trimToSize_eq_drop]
  have hcap : (t.setundobuffer M).undoStackSize = max M 1 := by
    unfold Turtle.setundobuffer
    simp only [hm]
  refine ⟨hcap, hs, ?_⟩
  rw [hs]
  simp only [List.length_drop]
  omega

/-! ## C5: animation duration from move speed -/

/-- C5: the animation duration in milliseconds equals 0 when the move
speed is at most 0, and equals (11 - speed)/10 * 300, truncated to an
integer as in the source cast, when the speed is positive. -/
theorem getAnimMS_zero_or_formula (s : ℚ) :
    (s ≤ 0 → getAnimMS s = 0)
  ∧ (0 < s → getAnimMS s = ratTrunc ((11 - s) / 10 * 300)) := by
  constructor
  · intro h
    unfold getAnimMS
    rw [if_pos h]
  · intro h
    unfold getAnimMS
    rw [if_neg (by linarith)]

/-- Witness: evaluating the duration at speeds 0 and 6 (the default)
through the theorem gives 0 ms and 150 ms. -/
theorem getAnimMS_zero_or_formula_witness : getAnimMS 0 = 0 ∧ getAnimMS 6 = 150 := by
  constructor
  · exact (getAnimMS_zero_or_formula 0).1 le_rfl
  · rw [(getAnimMS_zero_or_formula 6).2 (by norm_num)]
    have h150 : ((11 : ℚ) - 6) / 10 * 300 = 150 := by norm_num
    rw [h150]
    simp [ratTrunc]

/-! ## C10: dot is a four-step circle of half size -/

/-- C10: dot(color, size) has exactly the effect of
circle(size/2, 4, color), with size/2 the C integer division, on both the
turtle and the scene log: one owned 4-step circle object of radius
size/2 in the given color. -/
theorem dot_eq_four_step_circle (t : Turtle) (scr : TurtleScreen) (c : Color)
    (size : Int) :
    t.dot scr c size = t.circle scr (size.tdiv 2) 4 c
  ∧ (t.dot scr c size).2.objects
      = scr.objects ++ [{ geom := some (GeomPayload.circleOf (size.tdiv 2) 4),
                          fillColor := c, transform := t.state.transform }] := by
  exact ⟨rfl, rfl⟩

/-! ## C9: clearscreen resets everything but turtle membership -/

/-- C9: clearscreen empties the scene log, clears the key, mouse and
timer callback registries, resets the background to the plain default,
and leaves the set of attached turtles exactly as it was. -/
theorem clearscreen_resets_keeps_turtles (scr : TurtleScreen) :
    scr.clearscreen.objects = []
  ∧ scr.clearscreen.keyBindingsDown = []
  ∧ scr.clearscreen.keyBindingsUp = []
  ∧ scr.clearscreen.mouseBindings = ([], [], [])
  ∧ scr.clearscreen.timerBindings = []
  ∧ scr.clearscreen.backgroundColor = Color.white
  ∧ scr.clearscreen.backgroundImage = none
  ∧ scr.clearscreen.turtles = scr.turtles := by
  exact ⟨rfl, rfl, rfl, rfl, rfl, rfl, rfl, rfl⟩

/-! ## C7: clearstamps removes exactly the matching stamps -/

/-- C7: for a non-negative bound, clearstamps keeps exactly the scene
objects that are not stamps with id below the bound (so stamps with id at
least the bound and all non-stamp records survive); for a negative bound,
it keeps exactly the non-stamp records, removing every stamp. The turtle
itself is untouched. -/
theorem clearstamps_removes_below (t : Turtle) (scr : TurtleScreen) (k : Int) :
    (0 ≤ k →
        (t.clearstamps scr k).2.objects
          = scr.objects.filter (fun o => !(o.stamp && decide (o.stampid < k))))
  ∧ (k < 0 →
        (t.clearstamps scr k).2.objects = scr.objects.filter (fun o => !o.stamp))
  ∧ (t.clearstamps scr k).1 = t := by
  refine ⟨fun hk => ?_, fun hk => ?_, rfl⟩
  · unfold Turtle.clearstamps
    refine List.filter_congr fun o _ => ?_
    have hd : decide (k < 0) = false := by simp; omega
    rw [hd]
    simp
  · unfold Turtle.clearstamps
    refine List.filter_congr fun o _ => ?_
    have hd : decide (k < 0) = true := by simpa
    rw [hd]
    simp

/-- Witness: on a log holding stamps 0 and 1 and a text record,
clearstamps 1 removes exactly stamp 0, and clearstamps (-1) removes both
stamps, keeping the text record. -/
theorem clearstamps_removes_below_witness :
    (freshTurtle.clearstamps scrStamps 1).2.objects = [objText, objStamp1]
  ∧ (freshTurtle.clearstamps scrStamps (-1)).2.objects = [objText] := by
  constructor
  · rw [(clearstamps_removes_below freshTurtle scrStamps 1).1 (by norm_num)]
    decide
  · rw [(clearstamps_removes_below freshTurtle scrStamps (-1)).2.1 (by norm_num)]
    decide

/-! ## C1: undo pops the top state and truncates the scene log -/

/-- C1: with more than one pen state on the stack, undo removes the top
state, truncates the scene log to exactly the popped state objectsBefore
length (removing exactly the objects appended since that push whenever
objectsBefore is within the log, as the push invariant guarantees), and
the current state afterwards is the new top, restoring its visible
quantities such as the stamp counter; with only one state left, undo is a
no-op on both the stack and the log. -/
theorem undo_truncates_to_objectsBefore (t : Turtle) (scr : TurtleScreen) :
    (1 < t.stateStack.length →
        (t.undo scr).1.stateStack = t.stateStack.dropLast
      ∧ (t.undo scr).2.objects = scr.objects.take t.state.objectsBefore
      ∧ (t.undo scr).1.state = t.stateStack.dropLast.getLastD initialPenState
      ∧ (t.state.objectsBefore ≤ scr.objects.length →
            (t.undo scr).2.objects.length = t.state.objectsBefore
          ∧ scr.objects
              = (t.undo scr).2.objects ++ scr.objects.drop t.state.objectsBefore))
  ∧ (t.stateStack.length = 1 → t.undo scr = (t, scr)) := by
  constructor
  · intro h
    have hne : ¬t.stateStack.length ≤ 1 := by omega
    unfold Turtle.undo
    rw [if_neg hne]
    refine ⟨rfl, rfl, rfl, fun hle => ⟨?_, ?_⟩⟩
    · simp only [List.length_take]
      omega
    · exact (List.take_append_drop _ _).symm
  · intro h
    unfold Turtle.undo
    rw [if_pos (by omega)]

/-- Witness: on a two-state stack whose top recorded one object before
its push, and a three-object log, undo drops the top state and truncates
the log to its first object, removing exactly the two appended ones. -/
theorem undo_truncates_witness :
    (tUndo.undo scrUndo).1.stateStack = [penBottom]
  ∧ (tUndo.undo scrUndo).2.objects = [objPlain]
  ∧ (tUndo.undo scrUndo).2.objects.length = 1 := by
  obtain ⟨h1, h2, h3, h4⟩ :=
    (undo_truncates_to_objectsBefore tUndo scrUndo).1 (by decide)
  obtain ⟨h5, h6⟩ := h4 (by decide)
  refine ⟨?_, ?_, ?_⟩
  · rw [h1]; rfl
  · rw [h2]; rfl
  · rw [h5]; rfl

/-! ## C2: incremental redraw policy -/

/-- C2: when invalidation is requested or the scene log shrank since the
last redraw, the whole canvas is rebuilt from the entire scene log and
the objects-already-drawn counter is reset to the current log length;
otherwise only the objects appended since that counter are drawn on top
of the existing canvas and the counter is advanced to the current
length. -/
theorem redraw_incremental_policy (scr : TurtleScreen) (invalidate : Bool) :
    ((invalidate = true ∨ scr.objects.length < scr.lastTotalObjects) →
        (scr.redraw invalidate).canvas = scr.objects
      ∧ (scr.redraw invalidate).lastTotalObjects = scr.objects.length)
  ∧ (invalidate = false → scr.lastTotalObjects ≤ scr.objects.length →
        (scr.redraw invalidate).canvas
          = scr.canvas ++ scr.objects.drop scr.lastTotalObjects
      ∧ (scr.redraw invalidate).lastTotalObjects = scr.objects.length) := by
  constructor
  · intro h
    have hc : (invalidate || decide (scr.objects.length < scr.lastTotalObjects)) = true := by
      rcases h with h | h
      · simp [h]
      · simp [h]
    unfold TurtleScreen.redraw
    rw [if_pos hc]
    exact ⟨rfl, rfl⟩
  · intro hinv hle
    have hc : ¬(invalidate || decide (scr.objects.length < scr.lastTotalObjects)) = true := by
      simp [hinv]
      omega
    unfold TurtleScreen.redraw
    rw [if_neg hc]
    exact ⟨rfl, rfl⟩

/-- Witness: on a screen with two logged objects of which one is already
drawn, an invalidating redraw rebuilds the canvas from the whole log,
while a plain redraw draws only the one new object on top; both set the
counter to 2. -/
theorem redraw_incremental_policy_witness :
    (scrRedraw.redraw true).canvas = [objPlain, objText]
  ∧ (scrRedraw.redraw false).canvas = [objPlain, objText]
  ∧ (scrRedraw.redraw false).lastTotalObjects = 2 := by
  obtain ⟨h1, _⟩ :=
    (redraw_incremental_policy scrRedraw true).1 (Or.inl rfl)
  obtain ⟨h2, h3⟩ :=
    (redraw_incremental_policy scrRedraw false).2 rfl (by decide)
  refine ⟨?_, ?_, ?_⟩
  · rw [h1]; rfl
  · rw [h2]; rfl
  · rw [h3]; rfl

/-! ## C8: key callbacks are invoked in registration order -/

theorem findKeyList_cons (k0 : KeyboardKey) (fs0 : List KeyFunc)
    (rest : List (KeyboardKey × List KeyFunc)) (k : KeyboardKey) :
    findKeyList ((k0, fs0) :: rest) k
      = if (k0 == k) = true then some fs0 else findKeyList rest k := by
  unfold findKeyList
  rw [List.find?_cons]
  cases h : (k0 == k) <;> simp [h]

theorem findKeyList_append (m1 m2 : List (KeyboardKey × List KeyFunc))
    (k : KeyboardKey) :
    findKeyList (m1 ++ m2) k = (findKeyList m1 k).or (findKeyList m2 k) := by
  unfold findKeyList
  rw [List.find?_append]
  cases h : List.find? (fun p => p.1 == k) m1 <;> simp [h]

theorem findKeyList_addKeyFunc_ne (m : List (KeyboardKey × List KeyFunc))
    (key : KeyboardKey) (f : KeyFunc) (k : KeyboardKey)
    (hk : (key == k) = false) :
    findKeyList (addKeyFunc m key f) k = findKeyList m k := by
  induction m with
  | nil => rfl
  | cons p rest ih =>
      obtain ⟨k0, fs0⟩ := p
      simp only [addKeyFunc]
      by_cases h0 : (k0 == key) = true
      · rw [if_pos h0]
        have hk0 : (k0 == k) = false := by
          simp only [beq_iff_eq] at h0
          simp only [beq_eq_false_iff_ne] at hk ⊢
          rw [h0]
          exact hk
        rw [findKeyList_cons, findKeyList_cons, hk0]
        simp
      · rw [if_neg h0]
        rw [findKeyList_cons, findKeyList_cons]
        by_cases h1 : (k0 == k) = true
        · simp [h1]
        · simp [h1, ih]

theorem findKeyList_addKeyFunc_self (m : List (KeyboardKey × List KeyFunc))
    (key : KeyboardKey) (f : KeyFunc) (fs : List KeyFunc)
    (h : findKeyList m key = some fs) :
    findKeyList (addKeyFunc m key f) key = some (fs ++ [f]) := by
  induction m with
  | nil => simp [findKeyList] at h
  | cons p rest ih =>
      obtain ⟨k0, fs0⟩ := p
      rw [findKeyList_cons] at h
      simp only [addKeyFunc]
      by_cases h0 : (k0 == key) = true
      · rw [if_pos h0]
        rw [findKeyList_cons, if_pos h0]
        rw [if_pos h0] at h
        simp only [Option.some.injEq] at h
        rw [h]
      · rw [if_neg h0]
        rw [if_neg h0] at h
        rw [findKeyList_cons, if_neg h0]
        exact ih h

theorem findKeyList_bindKey (m : List (KeyboardKey × List KeyFunc)) (f : KeyFunc)
    (key k : KeyboardKey) :
    findKeyList (bindKey m f key) k
      = if (key == k) = true
        then some ((findKeyList m key).getD [] ++ [f])
        else findKeyList m k := by
  unfold bindKey
  cases h : findKeyList m key with
  | none =>
      simp only [h, Option.isNone_none, if_true]
      have habs : findKeyList (m ++ [(key, [])]) key = some [] := by
        rw [findKeyList_append, h, findKeyList_cons]
        simp
      by_cases hk : (key == k) = true
      · have hke : key = k := by simpa using hk
        subst hke
        rw [findKeyList_addKeyFunc_self _ _ _ _ habs, if_pos hk]
        simp
      · have hk' : (key == k) = false := by simpa using hk
        rw [findKeyList_addKeyFunc_ne _ _ _ _ hk', if_neg hk,
          findKeyList_append, findKeyList_cons, hk']
        simp [findKeyList]
  | some fs =>
      simp only [h, Option.isNone_some, Bool.false_eq_true, if_false]
      by_cases hk : (key == k) = true
      · have hke : key = k := by simpa using hk
        subst hke
        rw [findKeyList_addKeyFunc_self _ _ _ _ h, if_pos hk]
        simp
      · have hk' : (key == k) = false := by simpa using hk
        rw [findKeyList_addKeyFunc_ne _ _ _ _ hk', if_neg hk]

theorem presskey_eq_getD (scr : TurtleScreen) (key : KeyboardKey) :
    scr.presskey key = (findKeyList scr.keyBindingsDown key).getD [] := by
  unfold TurtleScreen.presskey
  cases findKeyList scr.keyBindingsDown key <;> rfl

theorem releasekey_eq_getD (scr : TurtleScreen) (key : KeyboardKey) :
    scr.releasekey key = (findKeyList scr.keyBindingsUp key).getD [] := by
  unfold TurtleScreen.releasekey
  cases findKeyList scr.keyBindingsUp key <;> rfl

theorem presskey_onkeypress (scr : TurtleScreen) (f : KeyFunc) (key k : KeyboardKey) :
    (scr.onkeypress f key).presskey k
      = scr.presskey k ++ (if key = k then [f] else []) := by
  rw [presskey_eq_getD, presskey_eq_getD]
  show (findKeyList (bindKey scr.keyBindingsDown f key) k).getD [] = _
  rw [findKeyList_bindKey]
  by_cases hk : key = k
  · subst hk
    simp
  · simp [hk]

theorem releasekey_onkeyrelease (scr : TurtleScreen) (f : KeyFunc) (key k : KeyboardKey) :
    (scr.onkeyrelease f key).releasekey k
      = scr.releasekey k ++ (if key = k then [f] else []) := by
  rw [releasekey_eq_getD, releasekey_eq_getD]
  show (findKeyList (bindKey scr.keyBindingsUp f key) k).getD [] = _
  rw [findKeyList_bindKey]
  by_cases hk : key = k
  · subst hk
    simp
  · simp [hk]

theorem presskey_onkeyrelease (scr : TurtleScreen) (f : KeyFunc) (key k : KeyboardKey) :
    (scr.onkeyrelease f key).presskey k = scr.presskey k := rfl

theorem releasekey_onkeypress (scr : TurtleScreen) (f : KeyFunc) (key k : KeyboardKey) :
    (scr.onkeypress f key).releasekey k = scr.releasekey k := rfl

theorem applyRegs_traces (regs : List KeyReg) :
    ∀ scr k,
      (applyRegs scr regs).presskey k = scr.presskey k ++ pressFuncsFor regs k
    ∧ (applyRegs scr regs).releasekey k = scr.releasekey k ++ releaseFuncsFor regs k := by
  induction regs with
  | nil =>
      intro scr k
      simp [applyRegs, pressFuncsFor, releaseFuncsFor]
  | cons r rest ih =>
      intro scr k
      cases r with
      | press f key =>
          have happ : applyRegs scr (KeyReg.press f key :: rest)
              = applyRegs (scr.onkeypress f key) rest := rfl
          constructor
          · rw [happ, (ih _ _).1, presskey_onkeypress]
            simp only [pressFuncsFor, List.filterMap_cons]
            by_cases hk : key = k <;> simp [pressFuncsFor, hk]
          · rw [happ, (ih _ _).2, releasekey_onkeypress]
            simp [releaseFuncsFor, List.filterMap_cons]
      | release f key =>
          have happ : applyRegs scr (KeyReg.release f key :: rest)
              = applyRegs (scr.onkeyrelease f key) rest := rfl
          constructor
          · rw [happ, (ih _ _).1, presskey_onkeyrelease]
            simp [pressFuncsFor, List.filterMap_cons]
          · rw [happ, (ih _ _).2, releasekey_onkeyrelease]
            simp only [releaseFuncsFor, List.filterMap_cons]
            by_cases hk : key = k <;> simp [releaseFuncsFor, hk]

/-- C8: after any sequence of on-press and on-release registrations on a
fresh screen, simulating a key press invokes exactly the on-press
callbacks registered for that key, each exactly once, in registration
order, and simulating a release invokes exactly the on-release callbacks
likewise, the two registries being independent; a key with no
registrations yields the empty invocation trace, a no-op rather than a
failure. -/
theorem key_callbacks_invoked_in_order (regs : List KeyReg) (key : KeyboardKey) :
    (applyRegs freshScreen regs).presskey key = pressFuncsFor regs key
  ∧ (applyRegs freshScreen regs).releasekey key = releaseFuncsFor regs key := by
  have h := applyRegs_traces regs freshScreen key
  have h0 : freshScreen.presskey key = [] := rfl
  have h1 : freshScreen.releasekey key = [] := rfl
  rw [h0, h1] at h
  simpa using h

/-! ## C3: begin_fill / end_fill insert exactly one polygon -/

theorem insertIdx_length_append {α : Type} (l1 l2 : List α) (x : α) :
    List.insertIdx l1.length x (l1 ++ l2) = l1 ++ x :: l2 := by
  induction l1 with
  | nil => rfl
  | cons a rest ih =>
      simp only [List.length_cons, List.cons_append, List.insertIdx_succ_cons, ih]

theorem travelTo_parts (t : Turtle) (scr : TurtleScreen) (d : AffineTransform)
    (hu : 1 ≤ t.undoStackSize) :
    (t.travelTo scr d).1.state
        = { t.state with objectsBefore := scr.objects.length, transform := d }
  ∧ (t.travelTo scr d).1.fillInsertPos = t.fillInsertPos
  ∧ (t.travelTo scr d).1.undoStackSize = t.undoStackSize
  ∧ (t.travelTo scr d).1.stateStack ≠ []
  ∧ ∃ added, (t.travelTo scr d).2.objects = scr.objects ++ added := by
  have h1 := pushState_state t scr hu
  unfold Turtle.travelTo
  refine ⟨?_, ?_, ?_, ?_, ?_⟩
  · by_cases hf : (t.pushState scr).state.filling = true
    · simp only [hf, if_pos]
      rw [modifyTop_state]
      show { (t.pushState scr).state with transform := d } = _
      rw [h1]
    · simp only [Bool.not_eq_true] at hf
      simp only [hf, Bool.false_eq_true, if_false]
      rw [modifyTop_state, h1]
  · by_cases hf : (t.pushState scr).state.filling = true
    · simp only [hf, if_pos]
      rfl
    · simp only [Bool.not_eq_true] at hf
      simp only [hf, Bool.false_eq_true, if_false]
      rfl
  · by_cases hf : (t.pushState scr).state.filling = true
    · simp only [hf, if_pos]
      rfl
    · simp only [Bool.not_eq_true] at hf
      simp only [hf, Bool.false_eq_true, if_false]
      rfl
  · by_cases hf : (t.pushState scr).state.filling = true
    · simp only [hf, if_pos]
      exact modifyTop_ne_nil _ _
    · simp only [Bool.not_eq_true] at hf
      simp only [hf, Bool.false_eq_true, if_false]
      exact modifyTop_ne_nil _ _
  · by_cases ht : (t.pushState scr).state.tracing = true
    · simp only [ht, if_pos]
      exact ⟨[traceLineObj t.state d], rfl⟩
    · simp only [Bool.not_eq_true] at ht
      simp only [ht, Bool.false_eq_true, if_false]
      exact ⟨[], by simp⟩

theorem fill_true_eq (t : Turtle) (scr : TurtleScreen)
    (hf : t.state.filling = false) :
    t.fill scr true
      = ({ (t.pushState scr).modifyTop (fun s => { s with filling := true }) with
           fillAccum := [t.state.transform], fillInsertPos := scr.objects.length },
         scr) := by
  unfold Turtle.fill
  rw [hf]
  rfl

theorem fill_true_not_filling (t : Turtle) (scr : TurtleScreen)
    (hf : t.state.filling = false) (hu : 1 ≤ t.undoStackSize) :
    (t.fill scr true).1.state
        = { t.state with objectsBefore := scr.objects.length, filling := true }
  ∧ (t.fill scr true).1.fillInsertPos = scr.objects.length
  ∧ (t.fill scr true).1.fillAccum = [t.state.transform]
  ∧ (t.fill scr true).1.undoStackSize = t.undoStackSize
  ∧ (t.fill scr true).1.stateStack ≠ []
  ∧ (t.fill scr true).2 = scr := by
  rw [fill_true_eq t scr hf]
  refine ⟨?_, rfl, rfl, rfl, ?_, rfl⟩
  · show ((t.pushState scr).modifyTop (fun s => { s with filling := true })).state = _
    rw [modifyTop_state, pushState_state t scr hu]
  · show ((t.pushState scr).modifyTop (fun s => { s with filling := true })).stateStack ≠ []
    exact modifyTop_ne_nil _ _

theorem fill_false_filling (t : Turtle) (scr : TurtleScreen)
    (hf : t.state.filling = true) :
    (t.fill scr false).2.objects
      = List.insertIdx t.fillInsertPos (fillPolyObj t.fillAccum t.state.fillColor)
          scr.objects := by
  unfold Turtle.fill
  simp only [hf, Bool.not_false, Bool.true_and, if_true]

theorem fill_false_not_filling (t : Turtle) (scr : TurtleScreen)
    (hf : t.state.filling = false) :
    (t.fill scr false).2 = scr := by
  unfold Turtle.fill
  simp only [hf, Bool.false_and, Bool.not_false, Bool.and_false, Bool.false_eq_true,
    if_false]

theorem travelSeq_inv (ds : List AffineTransform) :
    ∀ t scr, t.state.filling = true → 1 ≤ t.undoStackSize →
      (travelSeq t scr ds).1.state.filling = true
    ∧ (travelSeq t scr ds).1.state.fillColor = t.state.fillColor
    ∧ (travelSeq t scr ds).1.fillInsertPos = t.fillInsertPos
    ∧ 1 ≤ (travelSeq t scr ds).1.undoStackSize
    ∧ ∃ added, (travelSeq t scr ds).2.objects = scr.objects ++ added := by
  induction ds with
  | nil =>
      intro t scr hf hu
      exact ⟨hf, rfl, rfl, hu, [], by simp [travelSeq]⟩
  | cons d rest ih =>
      intro t scr hf hu
      obtain ⟨hst, hpos, hcap, hne, added1, hobj⟩ := travelTo_parts t scr d hu
      have hstep : travelSeq t scr (d :: rest)
          = travelSeq (t.travelTo scr d).1 (t.travelTo scr d).2 rest := rfl
      have hf1 : (t.travelTo scr d).1.state.filling = true := by rw [hst]; exact hf
      have hu1 : 1 ≤ (t.travelTo scr d).1.undoStackSize := by rw [hcap]; exact hu
      obtain ⟨i1, i2, i3, i4, added2, i5⟩ := ih (t.travelTo scr d).1 (t.travelTo scr d).2 hf1 hu1
      rw [hstep]
      refine ⟨i1, ?_, ?_, i4, added1 ++ added2, ?_⟩
      · rw [i2, hst]
      · rw [i3, hpos]
      · rw [i5, hobj, List.append_assoc]

/-- C3: starting not filling, begin_fill, any sequence of moves, then
end_fill adds exactly one scene object beyond those of the moves: the
single filled polygon in the fill color, inserted at the scene-log
position that existed at begin_fill time, underneath all geometry the
moves appended; and end_fill while not filling leaves the scene log
unchanged. -/
theorem begin_end_fill_single_polygon (t : Turtle) (scr : TurtleScreen)
    (ds : List AffineTransform) (hf : t.state.filling = false)
    (hu : 1 ≤ t.undoStackSize) :
    (((travelSeq (t.fill scr true).1 (t.fill scr true).2 ds).1.fill
        (travelSeq (t.fill scr true).1 (t.fill scr true).2 ds).2 false).2.objects
      = scr.objects
        ++ fillPolyObj
             (travelSeq (t.fill scr true).1 (t.fill scr true).2 ds).1.fillAccum
             t.state.fillColor
          :: (travelSeq (t.fill scr true).1 (t.fill scr true).2 ds).2.objects.drop
               scr.objects.length)
  ∧ (((travelSeq (t.fill scr true).1 (t.fill scr true).2 ds).1.fill
        (travelSeq (t.fill scr true).1 (t.fill scr true).2 ds).2 false).2.objects.length
      = (travelSeq (t.fill scr true).1 (t.fill scr true).2 ds).2.objects.length + 1)
  ∧ (t.fill scr false).2 = scr := by
  obtain ⟨hs1, hpos1, hacc1, hcap1, hne1, hscr1⟩ := fill_true_not_filling t scr hf hu
  have hf1 : (t.fill scr true).1.state.filling = true := by rw [hs1]
  have hu1 : 1 ≤ (t.fill scr true).1.undoStackSize := by rw [hcap1]; exact hu
  obtain ⟨j1, j2, j3, j4, added, j5⟩ :=
    travelSeq_inv ds (t.fill scr true).1 (t.fill scr true).2 hf1 hu1
  have hobj : (travelSeq (t.fill scr true).1 (t.fill scr true).2 ds).2.objects
      = scr.objects ++ added := by rw [j5, hscr1]
  have hcolor : (travelSeq (t.fill scr true).1 (t.fill scr true).2 ds).1.state.fillColor
      = t.state.fillColor := by rw [j2, hs1]
  have hpos : (travelSeq (t.fill scr true).1 (t.fill scr true).2 ds).1.fillInsertPos
      = scr.objects.length := by rw [j3, hpos1]
  have hdrop : (travelSeq (t.fill scr true).1 (t.fill scr true).2 ds).2.objects.drop
      scr.objects.length = added := by rw [hobj, List.drop_left]
  have hmain := fill_false_filling
    (travelSeq (t.fill scr true).1 (t.fill scr true).2 ds).1
    (travelSeq (t.fill scr true).1 (t.fill scr true).2 ds).2 j1
  rw [hpos, hcolor, hobj, insertIdx_length_append] at hmain
  refine ⟨?_, ?_, fill_false_not_filling t scr hf⟩
  · rw [hmain, hdrop]
  · rw [hmain, hobj]
    simp only [List.length_append, List.length_cons]
    omega

/-- Witness: on a one-object log, begin_fill, two moves, end_fill leaves
the original object first, the polygon next (at the begin_fill position),
then the two move trace lines, for four objects in total. -/
theorem begin_end_fill_witness :
    ((travelSeq (freshTurtle.fill scrFill true).1 (freshTurtle.fill scrFill true).2
        [3, 7]).1.fill
      (travelSeq (freshTurtle.fill scrFill true).1 (freshTurtle.fill scrFill true).2
        [3, 7]).2 false).2.objects
      = scrFill.objects
        ++ fillPolyObj
             (travelSeq (freshTurtle.fill scrFill true).1
               (freshTurtle.fill scrFill true).2 [3, 7]).1.fillAccum
             freshTurtle.state.fillColor
          :: (travelSeq (freshTurtle.fill scrFill true).1
               (freshTurtle.fill scrFill true).2 [3, 7]).2.objects.drop
               scrFill.objects.length
  ∧ ((travelSeq (freshTurtle.fill scrFill true).1 (freshTurtle.fill scrFill true).2
        [3, 7]).1.fill
      (travelSeq (freshTurtle.fill scrFill true).1 (freshTurtle.fill scrFill true).2
        [3, 7]).2 false).2.objects.length = 4 := by
  have h := begin_end_fill_single_polygon freshTurtle scrFill [3, 7] rfl (by decide)
  refine ⟨h.1, ?_⟩
  rw [h.2.1]
  rfl

/-! ## C6: stamp ids -/

theorem setundobuffer_parts (t : Turtle) (m : Nat) (hne : t.stateStack ≠ []) :
    (t.setundobuffer m).state = t.state
  ∧ 1 ≤ (t.setundobuffer m).undoStackSize
  ∧ (t.setundobuffer m).stateStack ≠ [] := by
  have hm : (if m < 1 then 1 else m) = max m 1 := by split <;> omega
  have hs : (t.setundobuffer m).stateStack
      = t.stateStack.drop (t.stateStack.length - max m 1) := by
    unfold Turtle.setundobuffer
    simp only [hm, trimToSize_eq_drop]
  have hcap : (t.setundobuffer m).undoStackSize = max m 1 := by
    unfold Turtle.setundobuffer
    simp only [hm]
  have hlen : 0 < t.stateStack.length := List.length_pos.mpr hne
  refine ⟨?_, by omega, ?_⟩
  · unfold Turtle.state
    rw [hs]
    exact getLastD_drop_of_lt _ _ (by omega) _
  · rw [hs]
    intro hcontra
    have := congrArg List.length hcontra
    simp only [List.length_drop, List.length_nil] at this
    omega

theorem stamp_parts (t : Turtle) (scr : TurtleScreen) (hu : 1 ≤ t.undoStackSize) :
    (t.stamp scr).2 = t.state.curStamp
  ∧ (t.stamp scr).1.1.state.curStamp = t.state.curStamp + 1
  ∧ (t.stamp scr).1.1.undoStackSize = t.undoStackSize
  ∧ (t.stamp scr).1.1.stateStack ≠ [] := by
  refine ⟨?_, ?_, rfl, ?_⟩
  · show (t.pushState scr).state.curStamp = t.state.curStamp
    rw [pushState_state t scr hu]
  · show ((t.pushState scr).modifyTop _).state.curStamp = t.state.curStamp + 1
    rw [modifyTop_state]
    show (t.pushState scr).state.curStamp + 1 = t.state.curStamp + 1
    rw [pushState_state t scr hu]
  · exact modifyTop_ne_nil _ _

theorem fill_parts (t : Turtle) (scr : TurtleScreen) (b : Bool)
    (hu : 1 ≤ t.undoStackSize) :
    (t.fill scr b).1.state.curStamp = t.state.curStamp
  ∧ (t.fill scr b).1.undoStackSize = t.undoStackSize
  ∧ (t.fill scr b).1.stateStack ≠ [] := by
  have hstack : (t.fill scr b).1.stateStack
      = ((t.pushState scr).modifyTop (fun s => { s with filling := b })).stateStack := by
    unfold Turtle.fill
    split
    · rfl
    · split
      · rfl
      · rfl
  have hcap : (t.fill scr b).1.undoStackSize = t.undoStackSize := by
    unfold Turtle.fill
    split
    · rfl
    · split
      · rfl
      · rfl
  have hstate : (t.fill scr b).1.state
      = ((t.pushState scr).modifyTop (fun s => { s with filling := b })).state := by
    unfold Turtle.state
    rw [hstack]
  refine ⟨?_, hcap, ?_⟩
  · rw [hstate, modifyTop_state]
    show (t.pushState scr).state.curStamp = t.state.curStamp
    rw [pushState_state t scr hu]
  · rw [hstack]
    exact modifyTop_ne_nil _ _

theorem setpenstate_parts (t : Turtle) (scr : TurtleScreen) (down : Bool)
    (hu : 1 ≤ t.undoStackSize) :
    (t.setpenstate scr down).state.curStamp = t.state.curStamp
  ∧ (t.setpenstate scr down).undoStackSize = t.undoStackSize
  ∧ (t.setpenstate scr down).stateStack ≠ [] := by
  refine ⟨?_, rfl, modifyTop_ne_nil _ _⟩
  unfold Turtle.setpenstate
  rw [modifyTop_state]
  show (t.pushState scr).state.curStamp = t.state.curStamp
  rw [pushState_state t scr hu]

theorem pencolor_parts (t : Turtle) (scr : TurtleScreen) (c : Color)
    (hu : 1 ≤ t.undoStackSize) :
    (t.pencolor scr c).state.curStamp = t.state.curStamp
  ∧ (t.pencolor scr c).undoStackSize = t.undoStackSize
  ∧ (t.pencolor scr c).stateStack ≠ [] := by
  refine ⟨?_, rfl, modifyTop_ne_nil _ _⟩
  unfold Turtle.pencolor
  rw [modifyTop_state]
  show (t.pushState scr).state.curStamp = t.state.curStamp
  rw [pushState_state t scr hu]

theorem width_parts (t : Turtle) (scr : TurtleScreen) (w : Int)
    (hu : 1 ≤ t.undoStackSize) :
    (t.width scr w).state.curStamp = t.state.curStamp
  ∧ (t.width scr w).undoStackSize = t.undoStackSize
  ∧ (t.width scr w).stateStack ≠ [] := by
  refine ⟨?_, rfl, modifyTop_ne_nil _ _⟩
  unfold Turtle.width
  rw [modifyTop_state]
  show (t.pushState scr).state.curStamp = t.state.curStamp
  rw [pushState_state t scr hu]

theorem countStamps_cons_of_ne (op : Op) (rest : List Op) (h : op ≠ Op.stampOp) :
    countStamps (op :: rest) = countStamps rest := by
  cases op
  all_goals first
    | rfl
    | exact absurd rfl h

theorem execOp_nonstamp (t : Turtle) (scr : TurtleScreen) (op : Op)
    (h1 : op ≠ Op.stampOp) (h2 : op ≠ Op.undoOp)
    (hu : 1 ≤ t.undoStackSize) (hne : t.stateStack ≠ []) :
    (execOp t scr op).2 = none
  ∧ (execOp t scr op).1.1.state.curStamp = t.state.curStamp
  ∧ 1 ≤ (execOp t scr op).1.1.undoStackSize
  ∧ (execOp t scr op).1.1.stateStack ≠ [] := by
  cases op with
  | moveOp d =>
      obtain ⟨hs, _, hcap, hne2, _⟩ := travelTo_parts t scr d hu
      refine ⟨rfl, ?_, ?_, hne2⟩
      · show (t.travelTo scr d).1.state.curStamp = t.state.curStamp
        rw [hs]
      · show 1 ≤ (t.travelTo scr d).1.undoStackSize
        rw [hcap]
        exact hu
  | stampOp => exact absurd rfl h1
  | fillOp b =>
      obtain ⟨ha, hb, hc⟩ := fill_parts t scr b hu
      exact ⟨rfl, ha, le_of_le_of_eq hu hb.symm, hc⟩
  | penOp down =>
      obtain ⟨ha, hb, hc⟩ := setpenstate_parts t scr down hu
      exact ⟨rfl, ha, le_of_le_of_eq hu hb.symm, hc⟩
  | pencolorOp c =>
      obtain ⟨ha, hb, hc⟩ := pencolor_parts t scr c hu
      exact ⟨rfl, ha, le_of_le_of_eq hu hb.symm, hc⟩
  | widthOp w =>
      obtain ⟨ha, hb, hc⟩ := width_parts t scr w hu
      exact ⟨rfl, ha, le_of_le_of_eq hu hb.symm, hc⟩
  | clearstampsOp sid => exact ⟨rfl, rfl, hu, hne⟩
  | setundobufferOp m =>
      obtain ⟨ha, hb, hc⟩ := setundobuffer_parts t m hne
      exact ⟨rfl, congrArg PenState.curStamp ha, hb, hc⟩
  | undoOp => exact absurd rfl h2

theorem execOp_stamp_parts (t : Turtle) (scr : TurtleScreen)
    (hu : 1 ≤ t.undoStackSize) :
    (execOp t scr Op.stampOp).2 = some t.state.curStamp
  ∧ (execOp t scr Op.stampOp).1.1.state.curStamp = t.state.curStamp + 1
  ∧ 1 ≤ (execOp t scr Op.stampOp).1.1.undoStackSize
  ∧ (execOp t scr Op.stampOp).1.1.stateStack ≠ [] := by
  obtain ⟨ha, hb, hc, hd⟩ := stamp_parts t scr hu
  exact ⟨by rw [show (execOp t scr Op.stampOp).2 = some (t.stamp scr).2 from rfl, ha],
    hb, by rw [show (execOp t scr Op.stampOp).1.1.undoStackSize
                 = (t.stamp scr).1.1.undoStackSize from rfl, hc]; exact hu, hd⟩

theorem execTrace_stamp_ids (ops : List Op) :
    ∀ t scr, Op.undoOp ∉ ops → 1 ≤ t.undoStackSize → t.stateStack ≠ [] →
      (execTrace ops t scr).2
        = (List.range (countStamps ops)).map (fun n : Nat => t.state.curStamp + (n : Int)) := by
  induction ops with
  | nil =>
      intro t scr _ _ _
      simp [execTrace, countStamps]
  | cons op rest ih =>
      intro t scr hno hu hne
      have hnr : Op.undoOp ∉ rest := fun h => hno (List.mem_cons_of_mem _ h)
      have hnu : op ≠ Op.undoOp := fun h => hno (h ▸ List.mem_cons_self _ _)
      have hstep : (execTrace (op :: rest) t scr).2
          = (execOp t scr op).2.toList
            ++ (execTrace rest (execOp t scr op).1.1 (execOp t scr op).1.2).2 := rfl
      by_cases hst : op = Op.stampOp
      · subst hst
        obtain ⟨e1, e2, e3, e4⟩ := execOp_stamp_parts t scr hu
        have h2 := ih (execOp t scr Op.stampOp).1.1 (execOp t scr Op.stampOp).1.2 hnr e3 e4
        rw [e2] at h2
        have hr : (List.range (countStamps rest + 1)).map
              (fun n : Nat => t.state.curStamp + (n : Int))
            = t.state.curStamp
              :: (List.range (countStamps rest)).map
                   (fun n : Nat => (t.state.curStamp + 1) + (n : Int)) := by
          rw [List.range_succ_eq_map, List.map_cons, List.map_map]
          refine congrArg₂ List.cons (by simp) ?_
          refine List.map_congr_left fun a ha => ?_
          show t.state.curStamp + ((a + 1 : ℕ) : Int) = t.state.curStamp + 1 + (a : Int)
          push_cast
          ring
        rw [hstep, e1, h2,
          show countStamps (Op.stampOp :: rest) = countStamps rest + 1 from rfl, hr]
        rfl
      · obtain ⟨e1, e2, e3, e4⟩ := execOp_nonstamp t scr op hst hnu hu hne
        have h2 := ih (execOp t scr op).1.1 (execOp t scr op).1.2 hnr e3 e4
        rw [e2] at h2
        rw [hstep, e1, h2, countStamps_cons_of_ne op rest hst]
        rfl

/-- C6 counterexample: interleaving stamp calls with an undo makes the
returned ids repeat: on a fresh turtle the sequence stamp, undo, stamp
returns the ids 0 and then 0 again, because undo restores the stamp
counter from the restored state, so the returned ids are not strictly
increasing across arbitrary interleavings. -/
theorem stamp_ids_repeat_after_undo :
    (execTrace [Op.stampOp, Op.undoOp, Op.stampOp] freshTurtle freshScreen).2 = [0, 0]
  ∧ ¬ List.Chain' (fun a b => a < b)
      (execTrace [Op.stampOp, Op.undoOp, Op.stampOp] freshTurtle freshScreen).2 := by
  have h : (execTrace [Op.stampOp, Op.undoOp, Op.stampOp] freshTurtle freshScreen).2
      = [0, 0] := by decide
  refine ⟨h, ?_⟩
  rw [h]
  simp [List.chain'_cons]

/-- C6 (amended): on a fresh turtle, across any interleaving with other
operations of that turtle that does not include undo, the successive
stamp calls return exactly the ids 0, 1, 2, ..., in order: strictly
increasing from 0. An intervening undo restores the stamp counter and
ids may repeat. -/
theorem stamp_ids_strictly_increasing_without_undo (ops : List Op)
    (h : Op.undoOp ∉ ops) :
    (execTrace ops freshTurtle freshScreen).2
      = (List.range (countStamps ops)).map (fun n : Nat => (n : Int))
  ∧ List.Chain' (fun a b => a < b) (execTrace ops freshTurtle freshScreen).2 := by
  have hmain := execTrace_stamp_ids ops freshTurtle freshScreen h (by decide) (by decide)
  have h0 : freshTurtle.state.curStamp = 0 := rfl
  rw [h0] at hmain
  simp only [zero_add] at hmain
  refine ⟨hmain, ?_⟩
  rw [hmain]
  have hp : ((List.range (countStamps ops)).map (fun n : Nat => (n : Int))).Pairwise
      (fun a b => a < b) := by
    refine List.Pairwise.map _ ?_ (List.pairwise_lt_range (countStamps ops))
    intro a b hab
    exact_mod_cast hab
  exact hp.chain'

/-- Witness for the amended C6: stamp, a move, then stamp on a fresh
turtle returns ids 0 and 1. -/
theorem stamp_ids_strictly_increasing_witness :
    (execTrace [Op.stampOp, Op.moveOp 5, Op.stampOp] freshTurtle freshScreen).2
      = [0, 1] := by
  have h := stamp_ids_strictly_increasing_without_undo
    [Op.stampOp, Op.moveOp 5, Op.stampOp] (by decide)
  rw [h.1]
  decide

end CTurtle
